import Mathlib

/-!
Formal model of `src/system_monitor.py` (class `SystemResourceMonitor`).

The Python object is embedded as an explicit state type `MonitorState`;
each method becomes a Lean function from the state (plus the values the
method reads from the outside world: `psutil` counters, the clock, the
process table) to the new state and the method's return value.  Python
numbers are modelled as `ℚ` (integers embedded where the source works
with `int` counters), Python strings as `String`.
-/

namespace SystemMonitor

/-- Rounding of `q * 100` to the nearest integer, halves to even: the rounding
used by Python when formatting a number with `"%.2f"`-style two-decimal
precision. -/
def round2 (q : ℚ) : ℤ :=
  if q * 100 - ⌊q * 100⌋ < 1/2 then ⌊q * 100⌋
  else if (1 : ℚ)/2 < q * 100 - ⌊q * 100⌋ then ⌊q * 100⌋ + 1
  else if ⌊q * 100⌋ % 2 = 0 then ⌊q * 100⌋ else ⌊q * 100⌋ + 1

/-- Model of the Python f-string conversion `f"{num:.2f}"`: the number rendered
with exactly two decimal digits, with a leading minus sign for negative
inputs. -/
def format2 (q : ℚ) : String :=
  (if q < 0 then "-" else "") ++
    toString ((round2 q).natAbs / 100) ++ "." ++
    (if (round2 q).natAbs % 100 < 10 then "0" else "") ++
    toString ((round2 q).natAbs % 100)

/-- The loop body of `SystemResourceMonitor._convert_bytes`: walk the unit
list `['B', 'KB', 'MB', 'GB', 'TB']`; return `f"{num:.2f} {unit}"` at the
first unit where `num < 1024`, otherwise divide `num` by `1024` and move to
the next unit; after `TB` fall through to `f"{num:.2f} PB"`. -/
def convertBytesAux : ℚ → List String → String
  | num, [] => format2 num ++ " PB"
  | num, unit :: rest =>
      if num < 1024 then format2 num ++ " " ++ unit
      else convertBytesAux (num / 1024) rest

/-- `SystemResourceMonitor._convert_bytes` (src/system_monitor.py lines
28-33). -/
def convert_bytes (num : ℚ) : String :=
  convertBytesAux num ["B", "KB", "MB", "GB", "TB"]

/-- Result of `psutil.disk_io_counters()`: the cumulative byte counters the
monitor reads. -/
structure DiskCounters where
  read_bytes : ℤ
  write_bytes : ℤ
deriving DecidableEq

/-- Result of `psutil.net_io_counters()`: the cumulative byte counters the
monitor reads. -/
structure NetCounters where
  bytes_sent : ℤ
  bytes_recv : ℤ
deriving DecidableEq

/-- One entry of the dictionary built in `get_running_processes` for a
readable process. -/
structure ProcessInfo where
  pid : ℤ
  name : String
  cpu : ℚ
  memory : ℚ
  cmd : String
deriving DecidableEq

/-- One process yielded by `psutil.process_iter`: either its attributes are
readable, or reading them raises `psutil.NoSuchProcess` or
`psutil.AccessDenied`. -/
inductive ProcResult where
  | ok : ℤ → String → ℚ → ℚ → List String → ProcResult
  | noSuchProcess : ProcResult
  | accessDenied : ProcResult
deriving DecidableEq

/-- The dictionary appended for a readable process (src/system_monitor.py
lines 51-57): pid, name, cpu, memory, and `' '.join(cmdline[:2]) if cmdline
else name`. -/
def procInfoOf (pid : ℤ) (name : String) (cpu memory : ℚ)
    (cmdline : List String) : ProcessInfo :=
  { pid := pid, name := name, cpu := cpu, memory := memory,
    cmd := if cmdline = [] then name
           else String.intercalate " " (cmdline.take 2) }

/-- The `processes` list built by the `for`/`try` loop of
`get_running_processes`: readable processes are collected in order, a
process whose read raises is skipped by `continue`. -/
def collectProcesses : List ProcResult → List ProcessInfo
  | [] => []
  | ProcResult.ok pid name cpu memory cmdline :: rest =>
      procInfoOf pid name cpu memory cmdline :: collectProcesses rest
  | ProcResult.noSuchProcess :: rest => collectProcesses rest
  | ProcResult.accessDenied :: rest => collectProcesses rest

/-- The order produced by `sorted(processes, key=lambda x: (x['cpu'],
x['memory']), reverse=True)`: `a` may precede `b` exactly when the key pair
of `a` is lexicographically ≥ the key pair of `b`. -/
def ProcGE (a b : ProcessInfo) : Prop :=
  b.cpu < a.cpu ∨ (a.cpu = b.cpu ∧ b.memory ≤ a.memory)

instance : DecidableRel ProcGE := fun a b => by
  unfold ProcGE; infer_instance

/-- `SystemResourceMonitor.get_running_processes` (src/system_monitor.py
lines 47-60).  Python's `sorted` with `reverse=True` is the stable
descending sort for the key `(cpu, memory)`; a stable sort for a total
preorder is unique, so it is modelled by `List.insertionSort` with the
non-strict descending relation `ProcGE`. -/
def get_running_processes (procs : List ProcResult) : List ProcessInfo :=
  (List.insertionSort ProcGE (collectProcesses procs)).take 10

/-- Append on a `collections.deque` with `maxlen`: the new element goes to
the right and, when the length would exceed `maxlen`, the oldest (leftmost)
elements are discarded. -/
def dequeAppend (maxlen : ℕ) (xs : List ℚ) (v : ℚ) : List ℚ :=
  (xs ++ [v]).drop ((xs ++ [v]).length - maxlen)

/-- The state held by a `SystemResourceMonitor` object: the six
`deque(maxlen=50)` histories, the saved counter readings, the log file
name, and the process-cache bookkeeping (src/system_monitor.py lines
13-26). -/
structure MonitorState where
  cpu_history : List ℚ
  mem_history : List ℚ
  disk_read_history : List ℚ
  disk_write_history : List ℚ
  network_send_history : List ℚ
  network_recv_history : List ℚ
  last_network_stats : NetCounters
  last_disk_io : DiskCounters
  log_file : String
  process_update_interval : ℚ
  last_process_update : ℚ
  processes : List ProcessInfo
deriving DecidableEq

/-- `SystemResourceMonitor.__init__`: empty histories, the first counter
readings saved as the previous ones, a 2-second process-refresh interval,
`last_process_update = 0`, empty process cache. -/
def init (net0 : NetCounters) (disk0 : DiskCounters) : MonitorState where
  cpu_history := []
  mem_history := []
  disk_read_history := []
  disk_write_history := []
  network_send_history := []
  network_recv_history := []
  last_network_stats := net0
  last_disk_io := disk0
  log_file := "system_performance.log"
  process_update_interval := 2
  last_process_update := 0
  processes := []

/-- The pair of strings returned by `get_disk_activity`. -/
structure DiskActivity where
  read : String
  write : String
deriving DecidableEq

/-- `SystemResourceMonitor.get_disk_activity` (src/system_monitor.py lines
35-45): subtract the saved counters from the fresh ones, save the fresh
ones, append `delta / 1024` to the two disk histories, and return the
formatted deltas with a `/s` suffix. -/
def get_disk_activity (s : MonitorState) (current_disk_io : DiskCounters) :
    MonitorState × DiskActivity :=
  let read_bytes : ℤ := current_disk_io.read_bytes - s.last_disk_io.read_bytes
  let write_bytes : ℤ := current_disk_io.write_bytes - s.last_disk_io.write_bytes
  ({ s with
      last_disk_io := current_disk_io,
      disk_read_history := dequeAppend 50 s.disk_read_history ((read_bytes : ℚ) / 1024),
      disk_write_history := dequeAppend 50 s.disk_write_history ((write_bytes : ℚ) / 1024) },
   { read := convert_bytes (read_bytes : ℚ) ++ "/s",
     write := convert_bytes (write_bytes : ℚ) ++ "/s" })

/-- The nested `network` dictionary of the stats returned by
`get_system_stats`. -/
structure NetworkActivity where
  sent : String
  received : String
deriving DecidableEq

/-- The `stats` dictionary returned by `get_system_stats`
(src/system_monitor.py lines 79-87). -/
structure Stats where
  cpu : ℚ
  memory : ℚ
  disk_activity : DiskActivity
  network : NetworkActivity
deriving DecidableEq

/-- Everything one call of `get_system_stats` reads from outside the
object: `psutil.cpu_percent`, `psutil.virtual_memory().percent`, the two
counter blocks, `time.time()`, and the process table seen if the cache is
refreshed. -/
structure TickInput where
  cpu_percent : ℚ
  mem_percent : ℚ
  disk : DiskCounters
  net : NetCounters
  now : ℚ
  procs : List ProcResult
deriving DecidableEq

/-- `SystemResourceMonitor.get_system_stats` (src/system_monitor.py lines
62-89): append the cpu and memory gauges to their histories, run
`get_disk_activity`, compute the network deltas against
`last_network_stats`, append `delta / 1024` to the network histories, save
the fresh network counters, refresh the process cache only when
`time.time() - last_process_update > process_update_interval`, and return
the stats dictionary.  The call to `log_performance` only appends to the
log file and is modelled by the separate function `log_performance`. -/
def get_system_stats (s0 : MonitorState) (inp : TickInput) :
    MonitorState × Stats :=
  let s1 := { s0 with cpu_history := dequeAppend 50 s0.cpu_history inp.cpu_percent }
  let s2 := { s1 with mem_history := dequeAppend 50 s1.mem_history inp.mem_percent }
  let da := get_disk_activity s2 inp.disk
  let s3 := da.1
  let sent_diff : ℤ := inp.net.bytes_sent - s3.last_network_stats.bytes_sent
  let recv_diff : ℤ := inp.net.bytes_recv - s3.last_network_stats.bytes_recv
  let s4 := { s3 with
    network_send_history := dequeAppend 50 s3.network_send_history ((sent_diff : ℚ) / 1024),
    network_recv_history := dequeAppend 50 s3.network_recv_history ((recv_diff : ℚ) / 1024),
    last_network_stats := inp.net }
  let s5 := if inp.now - s4.last_process_update > s4.process_update_interval then
      { s4 with
        processes := get_running_processes inp.procs,
        last_process_update := inp.now }
    else s4
  (s5,
   { cpu := inp.cpu_percent,
     memory := inp.mem_percent,
     disk_activity := da.2,
     network := { sent := convert_bytes (sent_diff : ℚ) ++ "/s",
                  received := convert_bytes (recv_diff : ℚ) ++ "/s" } })

/-- The single line written by one call of `log_performance`:
`f"[{timestamp}] CPU: {cpu}%, Memory: {memory}%, Disk Read: {read},
Disk Write: {write}, Network Sent: {sent}, Network Received: {received}\n"`.
`render` models Python's string interpolation of the two numeric fields. -/
def log_record (render : ℚ → String) (timestamp : String) (stats : Stats) :
    String :=
  "[" ++ timestamp ++ "] CPU: " ++ render stats.cpu ++ "%, Memory: " ++
    render stats.memory ++ "%, " ++
    "Disk Read: " ++ stats.disk_activity.read ++ ", Disk Write: " ++
    stats.disk_activity.write ++ ", " ++
    "Network Sent: " ++ stats.network.sent ++ ", Network Received: " ++
    stats.network.received ++ "\n"

/-- `SystemResourceMonitor.log_performance` (src/system_monitor.py lines
91-96): the file is opened in append mode, the one formatted line is
written, and the `with` block closes the file before the call returns.  It
is modelled as a function from the current file content to the new file
content. -/
def log_performance (render : ℚ → String) (fileContent : String)
    (timestamp : String) (stats : Stats) : String :=
  fileContent ++ log_record render timestamp stats

/-- Repeated calls of `get_system_stats`, one per tick, threading the
object state. -/
def runTicks (s : MonitorState) : List TickInput → MonitorState
  | [] => s
  | inp :: rest => runTicks (get_system_stats s inp).1 rest

/-- The per-second rate as the specification's words define it: the counter
delta divided by the elapsed seconds since the previous sample.  Stated
from the spec, for comparison with what the code computes. -/
def spec_rate (delta elapsed : ℚ) : ℚ :=
  delta / elapsed

/-! ### Helper lemmas about the deque model -/

theorem dequeAppend_eq (maxlen : ℕ) (xs : List ℚ) (v : ℚ) :
    dequeAppend maxlen xs v = (xs ++ [v]).drop ((xs.length + 1) - maxlen) := by
  simp [dequeAppend]

theorem dequeAppend_length (maxlen : ℕ) (xs : List ℚ) (v : ℚ) :
    (dequeAppend maxlen xs v).length = min (xs.length + 1) maxlen := by
  rw [dequeAppend_eq, List.length_drop, List.length_append]
  simp only [List.length_singleton]
  omega

theorem dequeAppend_getLast? (xs : List ℚ) (v : ℚ) :
    (dequeAppend 50 xs v).getLast? = some v := by
  rw [dequeAppend_eq]
  rw [List.drop_append_of_le_length (by omega)]
  exact List.getLast?_concat _

theorem foldl_dequeAppend (vs : List ℚ) :
    ∀ xs : List ℚ, xs.length ≤ 50 →
      List.foldl (dequeAppend 50) xs vs =
        (xs ++ vs).drop ((xs.length + vs.length) - 50) := by
  induction vs with
  | nil =>
      intro xs h
      simp only [List.foldl_nil, List.append_nil, List.length_nil]
      rw [show xs.length + 0 - 50 = 0 by omega, List.drop_zero]
  | cons v vs ih =>
      intro xs h
      rw [List.foldl_cons, ih (dequeAppend 50 xs v)
        (by rw [dequeAppend_length]; omega)]
      rw [dequeAppend_length, dequeAppend_eq]
      rw [← List.drop_append_of_le_length
        (show xs.length + 1 - 50 ≤ (xs ++ [v]).length by
          simp only [List.length_append, List.length_singleton]
          omega)]
      rw [List.drop_drop]
      have harr : xs ++ [v] ++ vs = xs ++ v :: vs := by simp
      rw [harr]
      congr 1
      simp only [List.length_cons]
      omega

/-! ### Helper lemmas about two-decimal formatting -/

theorem round2_eq (q : ℚ) (n : ℤ) (h : q * 100 = (n : ℚ)) : round2 q = n := by
  unfold round2
  rw [h, Int.floor_intCast, sub_self]
  norm_num

theorem format2_eval (q : ℚ) (n : ℕ) (h : q * 100 = (n : ℚ)) :
    format2 q = toString (n / 100) ++ "." ++
      (if n % 100 < 10 then "0" else "") ++ toString (n % 100) := by
  have hn : round2 q = (n : ℤ) := round2_eq q n (by exact_mod_cast h)
  have hq : ¬ q < 0 := by
    intro hq
    have h100 : q * 100 < 0 := by nlinarith
    rw [h] at h100
    have hnn : (0 : ℚ) ≤ (n : ℚ) := Nat.cast_nonneg n
    linarith
  unfold format2
  rw [hn, if_neg hq, Int.natAbs_ofNat, String.empty_append]

theorem format2_neg_eval (d : ℕ) (hd : 0 < d) :
    format2 (-(d : ℚ)) = "-" ++ toString d ++ ".00" := by
  have hn : round2 (-(d : ℚ)) = -(100 * (d : ℤ)) := by
    apply round2_eq
    push_cast
    ring
  have hq : (-(d : ℚ)) < 0 := by
    simp only [neg_neg, Left.neg_neg_iff]
    exact_mod_cast hd
  have habs : (-(100 * (d : ℤ))).natAbs = 100 * d := by
    rw [Int.natAbs_neg]
    exact_mod_cast Int.natAbs_ofNat (100 * d)
  unfold format2
  rw [hn, if_pos hq, habs, Nat.mul_div_cancel_left d (by norm_num),
    Nat.mul_mod_right, if_pos (by norm_num)]
  rw [String.append_assoc, String.append_assoc, String.append_assoc]
  rfl

theorem format2_zero : format2 0 = "0.00" := by
  rw [format2_eval 0 0 (by norm_num)]
  decide

theorem format2_three_halves : format2 (3/2) = "1.50" := by
  rw [format2_eval (3/2) 150 (by norm_num)]
  decide

theorem format2_one : format2 1 = "1.00" := by
  rw [format2_eval 1 100 (by norm_num)]
  decide

theorem format2_two : format2 2 = "2.00" := by
  rw [format2_eval 2 200 (by norm_num)]
  decide

/-! ### Helper lemmas about the byte formatter -/

theorem convertBytesAux_lt (num : ℚ) (unit : String) (rest : List String)
    (h : num < 1024) :
    convertBytesAux num (unit :: rest) = format2 num ++ " " ++ unit := by
  unfold convertBytesAux
  rw [if_pos h]

theorem convertBytesAux_ge (num : ℚ) (unit : String) (rest : List String)
    (h : ¬ num < 1024) :
    convertBytesAux num (unit :: rest) = convertBytesAux (num / 1024) rest := by
  conv_lhs => unfold convertBytesAux
  rw [if_neg h]

theorem convert_bytes_zero : convert_bytes 0 = "0.00 B" := by
  unfold convert_bytes
  rw [convertBytesAux_lt _ _ _ (by norm_num), format2_zero]
  rfl

theorem convert_bytes_1024 : convert_bytes 1024 = "1.00 KB" := by
  unfold convert_bytes
  rw [convertBytesAux_ge _ _ _ (by norm_num),
    show (1024 : ℚ) / 1024 = 1 by norm_num,
    convertBytesAux_lt _ _ _ (by norm_num), format2_one]
  rfl

theorem convert_bytes_1536 : convert_bytes 1536 = "1.50 KB" := by
  unfold convert_bytes
  rw [convertBytesAux_ge _ _ _ (by norm_num),
    show (1536 : ℚ) / 1024 = 3/2 by norm_num,
    convertBytesAux_lt _ _ _ (by norm_num), format2_three_halves]
  rfl

theorem convert_bytes_2048 : convert_bytes 2048 = "2.00 KB" := by
  unfold convert_bytes
  rw [convertBytesAux_ge _ _ _ (by norm_num),
    show (2048 : ℚ) / 1024 = 2 by norm_num,
    convertBytesAux_lt _ _ _ (by norm_num), format2_two]
  rfl

theorem convert_bytes_gib : convert_bytes 1073741824 = "1.00 GB" := by
  unfold convert_bytes
  rw [convertBytesAux_ge _ _ _ (by norm_num),
    show (1073741824 : ℚ) / 1024 = 1048576 by norm_num,
    convertBytesAux_ge _ _ _ (by norm_num),
    show (1048576 : ℚ) / 1024 = 1024 by norm_num,
    convertBytesAux_ge _ _ _ (by norm_num),
    show (1024 : ℚ) / 1024 = 1 by norm_num,
    convertBytesAux_lt _ _ _ (by norm_num), format2_one]
  rfl

theorem convert_bytes_small (q : ℚ) (h : q < 1024) :
    convert_bytes q = format2 q ++ " B" := by
  unfold convert_bytes
  rw [convertBytesAux_lt _ _ _ h, String.append_assoc]
  rfl

/-! ### Helper lemmas about the process ordering -/

instance : IsTotal ProcessInfo ProcGE := ⟨by
  intro a b
  unfold ProcGE
  rcases lt_trichotomy a.cpu b.cpu with h | h | h
  · right; left; exact h
  · rcases le_total a.memory b.memory with hm | hm
    · right; right; exact ⟨h.symm, hm⟩
    · left; right; exact ⟨h, hm⟩
  · left; left; exact h⟩

instance : IsTrans ProcessInfo ProcGE := ⟨by
  intro a b c hab hbc
  unfold ProcGE at hab hbc ⊢
  rcases hab with h1 | ⟨h1e, h1m⟩ <;> rcases hbc with h2 | ⟨h2e, h2m⟩
  · left; exact lt_trans h2 h1
  · left; exact h2e ▸ h1
  · left; exact h1e ▸ h2
  · right; exact ⟨h1e.trans h2e, le_trans h2m h1m⟩⟩

theorem collectProcesses_append (xs ys : List ProcResult) :
    collectProcesses (xs ++ ys) = collectProcesses xs ++ collectProcesses ys := by
  induction xs with
  | nil => rfl
  | cons p rest ih => cases p <;> simp [collectProcesses, ih]

theorem mem_collectProcesses (procs : List ProcResult) (pid : ℤ) (name : String)
    (cpu memory : ℚ) (cmdline : List String)
    (h : ProcResult.ok pid name cpu memory cmdline ∈ procs) :
    procInfoOf pid name cpu memory cmdline ∈ collectProcesses procs := by
  induction procs with
  | nil => cases h
  | cons p rest ih =>
      rcases List.mem_cons.mp h with heq | hmem
      · rw [← heq]
        exact List.mem_cons_self _ _
      · cases p <;> simp only [collectProcesses] <;>
          first
            | exact List.mem_cons_of_mem _ (ih hmem)
            | exact ih hmem

/-! ### Helper lemmas about `get_system_stats` -/

theorem get_system_stats_histories (s : MonitorState) (inp : TickInput) :
    (get_system_stats s inp).1.cpu_history =
        dequeAppend 50 s.cpu_history inp.cpu_percent ∧
    (get_system_stats s inp).1.mem_history =
        dequeAppend 50 s.mem_history inp.mem_percent ∧
    (get_system_stats s inp).1.disk_read_history =
        dequeAppend 50 s.disk_read_history
          (((inp.disk.read_bytes - s.last_disk_io.read_bytes : ℤ) : ℚ) / 1024) ∧
    (get_system_stats s inp).1.disk_write_history =
        dequeAppend 50 s.disk_write_history
          (((inp.disk.write_bytes - s.last_disk_io.write_bytes : ℤ) : ℚ) / 1024) ∧
    (get_system_stats s inp).1.network_send_history =
        dequeAppend 50 s.network_send_history
          (((inp.net.bytes_sent - s.last_network_stats.bytes_sent : ℤ) : ℚ) / 1024) ∧
    (get_system_stats s inp).1.network_recv_history =
        dequeAppend 50 s.network_recv_history
          (((inp.net.bytes_recv - s.last_network_stats.bytes_recv : ℤ) : ℚ) / 1024) := by
  unfold get_system_stats get_disk_activity
  dsimp only
  split <;> exact ⟨rfl, rfl, rfl, rfl, rfl, rfl⟩

theorem get_system_stats_no_refresh (s : MonitorState) (inp : TickInput)
    (h : ¬ inp.now - s.last_process_update > s.process_update_interval) :
    (get_system_stats s inp).1.processes = s.processes ∧
    (get_system_stats s inp).1.last_process_update = s.last_process_update := by
  unfold get_system_stats get_disk_activity
  dsimp only
  rw [if_neg h]
  exact ⟨rfl, rfl⟩

theorem get_system_stats_refresh (s : MonitorState) (inp : TickInput)
    (h : inp.now - s.last_process_update > s.process_update_interval) :
    (get_system_stats s inp).1.processes = get_running_processes inp.procs ∧
    (get_system_stats s inp).1.last_process_update = inp.now := by
  unfold get_system_stats get_disk_activity
  dsimp only
  rw [if_pos h]
  exact ⟨rfl, rfl⟩

/-- The six history-buffer lengths of a state are all `k`. -/
def BufLens (s : MonitorState) (k : ℕ) : Prop :=
  s.cpu_history.length = k ∧ s.mem_history.length = k ∧
  s.disk_read_history.length = k ∧ s.disk_write_history.length = k ∧
  s.network_send_history.length = k ∧ s.network_recv_history.length = k

theorem get_system_stats_bufLens (s : MonitorState) (inp : TickInput) (k : ℕ)
    (h : BufLens s k) : BufLens (get_system_stats s inp).1 (min (k + 1) 50) := by
  obtain ⟨h1, h2, h3, h4, h5, h6⟩ := h
  have hf := get_system_stats_histories s inp
  exact ⟨by rw [hf.1, dequeAppend_length, h1],
         by rw [hf.2.1, dequeAppend_length, h2],
         by rw [hf.2.2.1, dequeAppend_length, h3],
         by rw [hf.2.2.2.1, dequeAppend_length, h4],
         by rw [hf.2.2.2.2.1, dequeAppend_length, h5],
         by rw [hf.2.2.2.2.2, dequeAppend_length, h6]⟩

theorem runTicks_bufLens (inputs : List TickInput) :
    ∀ (s : MonitorState) (k : ℕ), k ≤ 50 → BufLens s k →
      BufLens (runTicks s inputs) (min (k + inputs.length) 50) := by
  induction inputs with
  | nil =>
      intro s k hk h
      have hmin : min (k + ([] : List TickInput).length) 50 = k := by
        simp only [List.length_nil]
        omega
      rw [hmin]
      exact h
  | cons i is ih =>
      intro s k hk h
      have h1 := get_system_stats_bufLens s i k h
      have h2 := ih (get_system_stats s i).1 (min (k + 1) 50) (by omega) h1
      have hmin : min (min (k + 1) 50 + is.length) 50 =
          min (k + (i :: is).length) 50 := by
        simp only [List.length_cons]
        omega
      rw [hmin] at h2
      exact h2

theorem init_bufLens (net0 : NetCounters) (disk0 : DiskCounters) :
    BufLens (init net0 disk0) 0 :=
  ⟨rfl, rfl, rfl, rfl, rfl, rfl⟩

theorem runTicks_cpu_history (inputs : List TickInput) :
    ∀ s : MonitorState, (runTicks s inputs).cpu_history =
      List.foldl (dequeAppend 50) s.cpu_history
        (inputs.map TickInput.cpu_percent) := by
  induction inputs with
  | nil => intro s; rfl
  | cons i is ih =>
      intro s
      simp only [runTicks, List.map_cons, List.foldl_cons]
      rw [ih, (get_system_stats_histories s i).1]

/-! ### The claims -/

/-- Claim C1 counterexample: with a saved disk read counter of 5000 and a
fresh reading of 100 (a counter reset), the value the code pushes into
`disk_read_history` is `(100 - 5000) / 1024 = -4900 / 1024`, which is
negative: the delta is not clamped to 0 and the reported rate is not
≥ 0. -/
theorem claim_C1_counterexample :
    (get_disk_activity (init ⟨0, 0⟩ ⟨5000, 0⟩) ⟨100, 0⟩).1.disk_read_history =
      [(-4900 : ℚ) / 1024] ∧
    ((-4900 : ℚ) / 1024) < 0 := by
  constructor
  · show dequeAppend 50 [] (((100 - 5000 : ℤ) : ℚ) / 1024) = [(-4900 : ℚ) / 1024]
    rw [show ((100 - 5000 : ℤ) : ℚ) = -4900 by norm_num]
    rfl
  · norm_num

/-- Claim C1 (amended): the code performs no clamping: the sample pushed
into each counter history is exactly `(current - previous) / 1024`, and
whenever the current counter is below the previous one this pushed rate
sample is negative. -/
theorem claim_C1_amended (s : MonitorState) (cur : DiskCounters)
    (inp : TickInput) :
    (get_disk_activity s cur).1.disk_read_history.getLast? =
        some (((cur.read_bytes - s.last_disk_io.read_bytes : ℤ) : ℚ) / 1024) ∧
    (get_disk_activity s cur).1.disk_write_history.getLast? =
        some (((cur.write_bytes - s.last_disk_io.write_bytes : ℤ) : ℚ) / 1024) ∧
    (get_system_stats s inp).1.network_send_history.getLast? =
        some (((inp.net.bytes_sent - s.last_network_stats.bytes_sent : ℤ) : ℚ) / 1024) ∧
    (get_system_stats s inp).1.network_recv_history.getLast? =
        some (((inp.net.bytes_recv - s.last_network_stats.bytes_recv : ℤ) : ℚ) / 1024) ∧
    (cur.read_bytes < s.last_disk_io.read_bytes →
        ((cur.read_bytes - s.last_disk_io.read_bytes : ℤ) : ℚ) / 1024 < 0) ∧
    (cur.write_bytes < s.last_disk_io.write_bytes →
        ((cur.write_bytes - s.last_disk_io.write_bytes : ℤ) : ℚ) / 1024 < 0) ∧
    (inp.net.bytes_sent < s.last_network_stats.bytes_sent →
        ((inp.net.bytes_sent - s.last_network_stats.bytes_sent : ℤ) : ℚ) / 1024 < 0) ∧
    (inp.net.bytes_recv < s.last_network_stats.bytes_recv →
        ((inp.net.bytes_recv - s.last_network_stats.bytes_recv : ℤ) : ℚ) / 1024 < 0) := by
  have hneg : ∀ a b : ℤ, a < b → ((a - b : ℤ) : ℚ) / 1024 < 0 := by
    intro a b hab
    apply div_neg_of_neg_of_pos _ (by norm_num)
    exact_mod_cast sub_neg.mpr hab
  refine ⟨dequeAppend_getLast? _ _, dequeAppend_getLast? _ _, ?_, ?_,
    hneg _ _, hneg _ _, hneg _ _, hneg _ _⟩
  · rw [(get_system_stats_histories s inp).2.2.2.2.1]
    exact dequeAppend_getLast? _ _
  · rw [(get_system_stats_histories s inp).2.2.2.2.2]
    exact dequeAppend_getLast? _ _

/-- Claim C1 witness: the amended statement applied to concrete counter
resets on all four counters. -/
theorem claim_C1_witness :
    (get_disk_activity (init ⟨10, 10⟩ ⟨5000, 7000⟩) ⟨100, 200⟩).1.disk_read_history.getLast? =
        some ((((100 : ℤ) - 5000 : ℤ) : ℚ) / 1024) ∧
    ((((100 : ℤ) - 5000 : ℤ) : ℚ) / 1024 < 0) ∧
    ((((200 : ℤ) - 7000 : ℤ) : ℚ) / 1024 < 0) ∧
    ((((3 : ℤ) - 10 : ℤ) : ℚ) / 1024 < 0) ∧
    ((((4 : ℤ) - 10 : ℤ) : ℚ) / 1024 < 0) := by
  have h := claim_C1_amended (init ⟨10, 10⟩ ⟨5000, 7000⟩) ⟨100, 200⟩
    ⟨0, 0, ⟨100, 200⟩, ⟨3, 4⟩, 1, []⟩
  exact ⟨h.1, h.2.2.2.2.1 (by decide), h.2.2.2.2.2.1 (by decide),
    h.2.2.2.2.2.2.1 (by decide), h.2.2.2.2.2.2.2 (by decide)⟩

/-- Claim C2 counterexample: with a previous disk read counter of 0, a
fresh reading of 2048, and 2 seconds elapsed between the samples, the code
reports "2.00 KB/s" (the raw delta), while a rate of `delta /
elapsed_seconds` would be 1024 B/s, reported "1.00 KB/s".  The code reads
no clock at all in its delta computation. -/
theorem claim_C2_counterexample :
    (get_disk_activity (init ⟨0, 0⟩ ⟨0, 0⟩) ⟨2048, 0⟩).2.read = "2.00 KB/s" ∧
    convert_bytes (spec_rate 2048 2) ++ "/s" = "1.00 KB/s" ∧
    ("2.00 KB/s" : String) ≠ "1.00 KB/s" := by
  refine ⟨?_, ?_, by decide⟩
  · show convert_bytes ((2048 - 0 : ℤ) : ℚ) ++ "/s" = "2.00 KB/s"
    rw [show ((2048 - 0 : ℤ) : ℚ) = 2048 by norm_num, convert_bytes_2048]
    rfl
  · unfold spec_rate
    rw [show (2048 : ℚ) / 2 = 1024 by norm_num, convert_bytes_1024]
    rfl

/-- Claim C2 (amended): the reported rate string for every counter metric
is the raw counter delta since the previous sample, formatted directly: no
division by the elapsed time takes place (the computation reads no
clock). -/
theorem claim_C2_amended (s : MonitorState) (cur : DiskCounters)
    (inp : TickInput) :
    (get_disk_activity s cur).2.read =
        convert_bytes ((cur.read_bytes - s.last_disk_io.read_bytes : ℤ) : ℚ) ++ "/s" ∧
    (get_disk_activity s cur).2.write =
        convert_bytes ((cur.write_bytes - s.last_disk_io.write_bytes : ℤ) : ℚ) ++ "/s" ∧
    (get_system_stats s inp).2.network.sent =
        convert_bytes ((inp.net.bytes_sent - s.last_network_stats.bytes_sent : ℤ) : ℚ) ++ "/s" ∧
    (get_system_stats s inp).2.network.received =
        convert_bytes ((inp.net.bytes_recv - s.last_network_stats.bytes_recv : ℤ) : ℚ) ++ "/s" :=
  ⟨rfl, rfl, rfl, rfl⟩

/-- Claim C3: pushing any sequence of values through a `deque(maxlen=50)`
leaves exactly the last `min 50 total` pushed values, in insertion order
(the oldest evicted first); the monitor's cpu buffer, driven by
`get_system_stats`, behaves exactly so. -/
theorem claim_C3 (pushes : List ℚ) :
    List.foldl (dequeAppend 50) [] pushes =
      pushes.drop (pushes.length - 50) ∧
    (List.foldl (dequeAppend 50) [] pushes).length = min 50 pushes.length ∧
    (∀ (net0 : NetCounters) (disk0 : DiskCounters) (inputs : List TickInput),
      (runTicks (init net0 disk0) inputs).cpu_history =
        (inputs.map TickInput.cpu_percent).drop (inputs.length - 50)) := by
  have hfold := foldl_dequeAppend pushes [] (by simp)
  simp only [List.nil_append, List.length_nil, Nat.zero_add] at hfold
  refine ⟨hfold, ?_, ?_⟩
  · rw [hfold, List.length_drop]
    omega
  · intro net0 disk0 inputs
    rw [runTicks_cpu_history]
    have h := foldl_dequeAppend (inputs.map TickInput.cpu_percent) [] (by simp)
    simp only [List.nil_append, List.length_nil, Nat.zero_add] at h
    rw [show (init net0 disk0).cpu_history = [] from rfl, h, List.length_map]

/-- Claim C4: the process list is refreshed only when `now -
last_process_update` strictly exceeds the 2-second
`process_update_interval`; inside the interval the cached list and the
timestamp are left untouched, and past it the cache is re-enumerated and
the timestamp set to `now`. -/
theorem claim_C4 :
    (∀ (net0 : NetCounters) (disk0 : DiskCounters),
      (init net0 disk0).process_update_interval = 2) ∧
    (∀ (s : MonitorState) (inp : TickInput),
      inp.now - s.last_process_update ≤ s.process_update_interval →
        (get_system_stats s inp).1.processes = s.processes ∧
        (get_system_stats s inp).1.last_process_update = s.last_process_update) ∧
    (∀ (s : MonitorState) (inp : TickInput),
      inp.now - s.last_process_update > s.process_update_interval →
        (get_system_stats s inp).1.processes = get_running_processes inp.procs ∧
        (get_system_stats s inp).1.last_process_update = inp.now) := by
  refine ⟨fun _ _ => rfl, ?_, get_system_stats_refresh⟩
  intro s inp h
  exact get_system_stats_no_refresh s inp (not_lt.mpr h)

/-- A tick one second after start: inside the 2-second refresh interval. -/
def tickEarly : TickInput :=
  ⟨0, 0, ⟨0, 0⟩, ⟨0, 0⟩, 1, [ProcResult.ok 1 "a" 5 1 []]⟩

/-- A tick three seconds after start: past the 2-second refresh
interval. -/
def tickLate : TickInput :=
  ⟨0, 0, ⟨0, 0⟩, ⟨0, 0⟩, 3, [ProcResult.ok 1 "a" 5 1 []]⟩

/-- Claim C4 witness: at `now = 1` (inside the interval) the cache is
reused, at `now = 3` (past the interval) it is re-enumerated and the
timestamp updated. -/
theorem claim_C4_witness :
    (get_system_stats (init ⟨0, 0⟩ ⟨0, 0⟩) tickEarly).1.processes =
      (init ⟨0, 0⟩ ⟨0, 0⟩).processes ∧
    (get_system_stats (init ⟨0, 0⟩ ⟨0, 0⟩) tickLate).1.processes =
      get_running_processes tickLate.procs ∧
    (get_system_stats (init ⟨0, 0⟩ ⟨0, 0⟩) tickLate).1.last_process_update =
      tickLate.now := by
  refine ⟨(claim_C4.2.1 _ tickEarly ?_).1, (claim_C4.2.2 _ tickLate ?_).1,
    (claim_C4.2.2 _ tickLate ?_).2⟩
  · show (1 : ℚ) - 0 ≤ 2
    norm_num
  · show (3 : ℚ) - 0 > 2
    norm_num
  · show (3 : ℚ) - 0 > 2
    norm_num

/-- Claim C5: `get_running_processes` returns at most 10 entries, sorted
descending by the pair (cpu, memory) with ties on cpu broken by memory
descending, and the result is the first 10 entries of the full sorted
collection of readable processes. -/
theorem claim_C5 (procs : List ProcResult) :
    (get_running_processes procs).length ≤ 10 ∧
    List.Sorted ProcGE (get_running_processes procs) ∧
    ∃ full : List ProcessInfo,
      full.Perm (collectProcesses procs) ∧ List.Sorted ProcGE full ∧
      get_running_processes procs = full.take 10 := by
  refine ⟨?_, ?_, List.insertionSort ProcGE (collectProcesses procs),
    List.perm_insertionSort ProcGE _, List.sorted_insertionSort ProcGE _, rfl⟩
  · exact List.length_take_le _ _
  · exact List.Pairwise.sublist (List.take_sublist _ _)
      (List.sorted_insertionSort ProcGE _)

/-- Eleven readable processes (cpu 10 down to 0) with one unreadable
process in between: the input for the C6 counterexample. -/
def exProcs : List ProcResult :=
  [ProcResult.ok 10 "p" 10 0 [], ProcResult.ok 9 "p" 9 0 [],
   ProcResult.ok 8 "p" 8 0 [], ProcResult.ok 7 "p" 7 0 [],
   ProcResult.ok 6 "p" 6 0 [], ProcResult.ok 5 "p" 5 0 [],
   ProcResult.ok 4 "p" 4 0 [], ProcResult.ok 3 "p" 3 0 [],
   ProcResult.ok 2 "p" 2 0 [], ProcResult.ok 1 "p" 1 0 [],
   ProcResult.accessDenied, ProcResult.ok 0 "idle" 0 0 []]

/-- Claim C6 counterexample: in an enumeration of eleven readable
processes (plus one unreadable one), the readable process with the lowest
cpu does not appear in the returned list — the top-10 truncation drops it,
so it is not true that every other readable process still appears in the
returned list. -/
theorem claim_C6_counterexample :
    ProcResult.ok 0 "idle" 0 0 [] ∈ exProcs ∧
    procInfoOf 0 "idle" 0 0 [] ∉ get_running_processes exProcs ∧
    (get_running_processes exProcs).length = 10 := by
  refine ⟨by decide, by decide, by decide⟩

/-- Claim C6 (amended): a per-process read failure is skipped silently:
the returned list is exactly the one computed with that element absent
(the call never fails as a whole), and every readable process appears in
the full sorted collection — though only the top 10 of it are returned. -/
theorem claim_C6_amended :
    (∀ (xs ys : List ProcResult),
      get_running_processes (xs ++ ProcResult.noSuchProcess :: ys) =
        get_running_processes (xs ++ ys) ∧
      get_running_processes (xs ++ ProcResult.accessDenied :: ys) =
        get_running_processes (xs ++ ys)) ∧
    (∀ (procs : List ProcResult) (pid : ℤ) (name : String) (cpu memory : ℚ)
        (cmdline : List String),
      ProcResult.ok pid name cpu memory cmdline ∈ procs →
        procInfoOf pid name cpu memory cmdline ∈
          List.insertionSort ProcGE (collectProcesses procs)) := by
  constructor
  · intro xs ys
    constructor <;>
    · unfold get_running_processes
      rw [collectProcesses_append, collectProcesses_append]
      rfl
  · intro procs pid name cpu memory cmdline h
    rw [List.mem_insertionSort]
    exact mem_collectProcesses procs pid name cpu memory cmdline h

/-- Claim C6 witness: the amended statement at a concrete enumeration with
one vanished process. -/
theorem claim_C6_witness :
    get_running_processes [ProcResult.ok 1 "a" 5 1 [], ProcResult.noSuchProcess,
        ProcResult.ok 2 "b" 3 1 []] =
      get_running_processes [ProcResult.ok 1 "a" 5 1 [], ProcResult.ok 2 "b" 3 1 []] ∧
    procInfoOf 1 "a" 5 1 [] ∈ List.insertionSort ProcGE (collectProcesses
      [ProcResult.ok 1 "a" 5 1 [], ProcResult.noSuchProcess,
       ProcResult.ok 2 "b" 3 1 []]) :=
  ⟨(claim_C6_amended.1 [ProcResult.ok 1 "a" 5 1 []] [ProcResult.ok 2 "b" 3 1 []]).1,
   claim_C6_amended.2 _ 1 "a" 5 1 [] (by decide)⟩

/-- Claim C7: the byte formatter scales by repeated division by 1024
through B, KB, MB, GB, TB, PB with two-decimal precision: 1536 formats as
"1.50 KB", 0 as "0.00 B", and 1073741824 as "1.00 GB"; `get_disk_activity`
reports each formatted delta with a "/s" suffix. -/
theorem claim_C7 :
    convert_bytes 1536 = "1.50 KB" ∧
    convert_bytes 0 = "0.00 B" ∧
    convert_bytes 1073741824 = "1.00 GB" ∧
    (∀ (s : MonitorState) (cur : DiskCounters),
      (get_disk_activity s cur).2.read =
        convert_bytes ((cur.read_bytes - s.last_disk_io.read_bytes : ℤ) : ℚ) ++ "/s" ∧
      (get_disk_activity s cur).2.write =
        convert_bytes ((cur.write_bytes - s.last_disk_io.write_bytes : ℤ) : ℚ) ++ "/s") :=
  ⟨convert_bytes_1536, convert_bytes_zero, convert_bytes_gib,
   fun _ _ => ⟨rfl, rfl⟩⟩

/-- Claim C8: each call of `log_performance` leaves the existing file
content untouched as a prefix and appends exactly one line — one `"\n"`,
at the very end — of the form
`[timestamp] CPU: v%, Memory: v%, Disk Read: v, Disk Write: v,
Network Sent: v, Network Received: v`, provided none of the interpolated
values contains a newline.  The function maps old file content to new file
content: the file is opened and closed within the call, so nothing is
buffered across ticks. -/
theorem claim_C8 (render : ℚ → String) (fileContent timestamp : String)
    (stats : Stats)
    (hts : '\n' ∉ timestamp.data)
    (hcpu : '\n' ∉ (render stats.cpu).data)
    (hmem : '\n' ∉ (render stats.memory).data)
    (hr : '\n' ∉ stats.disk_activity.read.data)
    (hw : '\n' ∉ stats.disk_activity.write.data)
    (hsent : '\n' ∉ stats.network.sent.data)
    (hrecv : '\n' ∉ stats.network.received.data) :
    log_performance render fileContent timestamp stats =
      fileContent ++ log_record render timestamp stats ∧
    (log_record render timestamp stats).data.count '\n' = 1 ∧
    (log_record render timestamp stats).data.getLast? = some '\n' := by
  refine ⟨rfl, ?_, ?_⟩
  · unfold log_record
    simp only [String.data_append, List.count_append]
    rw [List.count_eq_zero.mpr hts, List.count_eq_zero.mpr hcpu,
      List.count_eq_zero.mpr hmem, List.count_eq_zero.mpr hr,
      List.count_eq_zero.mpr hw, List.count_eq_zero.mpr hsent,
      List.count_eq_zero.mpr hrecv]
    decide
  · unfold log_record
    simp only [String.data_append]
    exact List.getLast?_concat _

/-- A concrete stats record for the C8 witness. -/
def statsW : Stats :=
  ⟨12, 34, ⟨"1.00 KB/s", "0.00 B/s"⟩, ⟨"2.00 KB/s", "0.00 B/s"⟩⟩

/-- Claim C8 witness: the statement at concrete file content, timestamp,
stats and rendering. -/
theorem claim_C8_witness :
    log_performance (fun _ => "50.0") "prev line\n" "2024-01-01 00:00:00" statsW =
      "prev line\n" ++ log_record (fun _ => "50.0") "2024-01-01 00:00:00" statsW ∧
    (log_record (fun _ => "50.0") "2024-01-01 00:00:00" statsW).data.count '\n' = 1 ∧
    (log_record (fun _ => "50.0") "2024-01-01 00:00:00" statsW).data.getLast? =
      some '\n' :=
  claim_C8 (fun _ => "50.0") "prev line\n" "2024-01-01 00:00:00" statsW
    (by decide) (by decide) (by decide) (by decide) (by decide) (by decide)
    (by decide)

/-- Claim C9 counterexample: `get_disk_activity` is itself a public method
and it appends to the disk read history: after one call on a fresh monitor
the disk read buffer has length 1 while the cpu buffer still has length 0,
so it is not true that only `get_system_stats` changes buffer lengths (nor
that the six lengths always agree). -/
theorem claim_C9_counterexample :
    (init ⟨0, 0⟩ ⟨0, 0⟩).disk_read_history.length = 0 ∧
    ((get_disk_activity (init ⟨0, 0⟩ ⟨0, 0⟩) ⟨0, 0⟩).1.disk_read_history).length = 1 ∧
    ((get_disk_activity (init ⟨0, 0⟩ ⟨0, 0⟩) ⟨0, 0⟩).1.cpu_history).length = 0 := by
  refine ⟨rfl, ?_, rfl⟩
  show (dequeAppend 50 [] (((0 - 0 : ℤ) : ℚ) / 1024)).length = 1
  rw [dequeAppend_length]
  rfl

/-- Claim C9 (amended): every call of `get_system_stats` appends exactly
one value to each of the six history buffers, so after `n` calls from a
fresh monitor all six buffers have length `min n 50`; but
`get_disk_activity` is also a public operation that appends to the two
disk buffers (it is the step `get_system_stats` delegates to), leaving
the other four untouched. -/
theorem claim_C9_amended :
    (∀ (net0 : NetCounters) (disk0 : DiskCounters) (inputs : List TickInput),
      BufLens (runTicks (init net0 disk0) inputs) (min inputs.length 50)) ∧
    (∀ (s : MonitorState) (inp : TickInput) (k : ℕ),
      BufLens s k → BufLens (get_system_stats s inp).1 (min (k + 1) 50)) ∧
    (∀ (s : MonitorState) (cur : DiskCounters),
      ((get_disk_activity s cur).1.disk_read_history).length =
        min (s.disk_read_history.length + 1) 50 ∧
      ((get_disk_activity s cur).1.disk_write_history).length =
        min (s.disk_write_history.length + 1) 50 ∧
      (get_disk_activity s cur).1.cpu_history = s.cpu_history ∧
      (get_disk_activity s cur).1.mem_history = s.mem_history ∧
      (get_disk_activity s cur).1.network_send_history = s.network_send_history ∧
      (get_disk_activity s cur).1.network_recv_history = s.network_recv_history) := by
  refine ⟨?_, get_system_stats_bufLens, ?_⟩
  · intro net0 disk0 inputs
    have h := runTicks_bufLens inputs (init net0 disk0) 0 (by omega)
      (init_bufLens net0 disk0)
    rwa [Nat.zero_add] at h
  · intro s cur
    exact ⟨dequeAppend_length 50 s.disk_read_history _,
      dequeAppend_length 50 s.disk_write_history _, rfl, rfl, rfl, rfl⟩

/-- Claim C9 witness: the amended statement at a fresh monitor run for
three ticks (all six buffers reach length 3), and one step from a state
with buffers of length 0 (all six reach length 1). -/
theorem claim_C9_witness :
    BufLens (runTicks (init ⟨0, 0⟩ ⟨0, 0⟩) [tickEarly, tickEarly, tickEarly])
      (min 3 50) ∧
    BufLens (get_system_stats (init ⟨0, 0⟩ ⟨0, 0⟩) tickEarly).1 (min (0 + 1) 50) :=
  ⟨claim_C9_amended.1 ⟨0, 0⟩ ⟨0, 0⟩ [tickEarly, tickEarly, tickEarly],
   claim_C9_amended.2.1 (init ⟨0, 0⟩ ⟨0, 0⟩) tickEarly 0
     (init_bufLens ⟨0, 0⟩ ⟨0, 0⟩)⟩

/-- Claim C10: for every input below 1024 — negative inputs included — the
byte formatter returns the two-decimal rendering with the plain "B" unit,
with no scaling; hence a counter reset of magnitude `d` is reported as
"-d.00 B/s" at the public interface. -/
theorem claim_C10 :
    (∀ q : ℚ, q < 1024 → convert_bytes q = format2 q ++ " B") ∧
    (∀ (d : ℕ) (s : MonitorState) (cur : DiskCounters), 0 < d →
      cur.read_bytes = s.last_disk_io.read_bytes - (d : ℤ) →
      (get_disk_activity s cur).2.read = "-" ++ toString d ++ ".00 B/s") := by
  refine ⟨convert_bytes_small, ?_⟩
  intro d s cur hd hcur
  have h1 : (get_disk_activity s cur).2.read =
      convert_bytes ((cur.read_bytes - s.last_disk_io.read_bytes : ℤ) : ℚ) ++ "/s" := rfl
  have h2 : ((cur.read_bytes - s.last_disk_io.read_bytes : ℤ) : ℚ) = -(d : ℚ) := by
    rw [hcur]
    push_cast
    ring
  have hdq : (0 : ℚ) < (d : ℚ) := by exact_mod_cast hd
  rw [h1, h2, convert_bytes_small _ (by linarith), format2_neg_eval d hd]
  simp only [String.append_assoc]
  rfl

/-- Claim C10 witness: a reset of magnitude 4900 (previous counter 5000,
fresh counter 100) is reported as "-4900.00 B/s", and a small positive
input keeps the "B" unit. -/
theorem claim_C10_witness :
    convert_bytes (3/2) = format2 (3/2) ++ " B" ∧
    (get_disk_activity (init ⟨0, 0⟩ ⟨5000, 0⟩) ⟨100, 0⟩).2.read =
      "-" ++ toString (4900 : ℕ) ++ ".00 B/s" := by
  refine ⟨claim_C10.1 (3/2) (by norm_num), claim_C10.2 4900 _ _ (by norm_num) ?_⟩
  show (100 : ℤ) = 5000 - ((4900 : ℕ) : ℤ)
  norm_num

end SystemMonitor
